import Mathlib

/-!
Verification of the OpenAPI/Swagger generation engine of the fluxo repository
(src/swagger.go), as a shallow embedding in Lean 4.

Go `reflect.Type` values for request/response shapes are embedded as the
inductive `GoType` below; struct fields carry the five tags the engine reads
(json, form, uri, header, validate).  Go maps used by the engine
(`Components.Schemas`, `Paths`) are embedded as association lists with
in-place update (`assocSet`), which models Go map assignment with a
deterministic representation.  Go runtime panics (nil-interface method calls,
`reflect.NumField` on non-structs) are modelled by `Option`: `none` is a
panic.  Since Go's `reflect.Type` graph may be cyclic (self-referential
structs) while `GoType` is a finite tree, a second, fuel-indexed embedding
over a name-to-fields environment (`generateSchemaF` and friends) is given
for the claims about recursive shapes; it mirrors the same source functions
line by line, with `none` also covering fuel exhaustion.
-/

namespace Fluxo

/-! ### Go string helpers (strings.Split, strings.Contains, strings.HasPrefix) -/

/-- First segment of a comma-separated tag value: Go `strings.Split(tag, ",")[0]`. -/
def firstSegChars : List Char → List Char
  | [] => []
  | c :: rest => if c = ',' then [] else c :: firstSegChars rest

/-- Go `strings.Split(tag, ",")[0]`, used to take the name part of a tag. -/
def firstSeg (s : String) : String := String.mk (firstSegChars s.data)

/-- Whether the first list is an initial run of the second (helper for `goContains`). -/
def leadsChars : List Char → List Char → Bool
  | [], _ => true
  | _ :: _, [] => false
  | a :: as, b :: bs => a = b && leadsChars as bs

/-- Substring search on character lists (helper for `goContains`). -/
def containsSubChars : List Char → List Char → Bool
  | [], needle => needle.isEmpty
  | h :: t, needle => leadsChars needle (h :: t) || containsSubChars t needle

/-- Go `strings.Contains(s, sub)`. -/
def goContains (s sub : String) : Bool := containsSubChars s.data sub.data

/-- Go `strings.Split(path, "/")` on character lists. -/
def splitOnSlashChars : List Char → List (List Char)
  | [] => [[]]
  | c :: rest =>
      if c = '/' then [] :: splitOnSlashChars rest
      else
        match splitOnSlashChars rest with
        | [] => [[c]]
        | g :: gs => (c :: g) :: gs

/-- extractPathParameters extracts parameter names from path like /users/:id -> [id]
(src/swagger.go, lines 256-267). -/
def extractPathParameters (path : String) : List String :=
  (splitOnSlashChars path.data).filterMap fun part =>
    match part with
    | ':' :: rest => some (String.mk rest)
    | _ => none

/-- contains checks if a string slice contains a specific string
(src/swagger.go, lines 269-277). -/
def contains (slice : List String) (item : String) : Bool :=
  slice.any fun s => s == item

/-! ### The data model: Go types as seen through reflect, and the OpenAPI tree -/

mutual

/-- A Go type as the engine observes it through `reflect`: primitive kinds,
pointer and slice type constructors, `multipart.FileHeader`, named (possibly
anonymous, `name = ""`) struct types with their fields, and a catch-all for
every other kind. -/
inductive GoType where
  | tString
  | tInt
  | tFloat
  | tBool
  | tFileHeader
  | tOther
  | tPtr (elem : GoType)
  | tSlice (elem : GoType)
  | tStruct (name : String) (fields : GoFields)

/-- A struct field: the five tags read by the engine (`json`, `form`, `uri`,
`header`, `validate`; absent tags are `""`) and the field's type. -/
inductive GoField where
  | mk (jsonTag formTag uriTag headerTag validateTag : String) (typ : GoType)

/-- The ordered field list of a struct shape (a bespoke list so that the
engine's recursion over fields is structural over this mutual family). -/
inductive GoFields where
  | nil
  | cons (head : GoField) (tail : GoFields)

end

def GoField.jsonTag : GoField → String
  | .mk j _ _ _ _ _ => j

def GoField.formTag : GoField → String
  | .mk _ f _ _ _ _ => f

def GoField.uriTag : GoField → String
  | .mk _ _ u _ _ _ => u

def GoField.headerTag : GoField → String
  | .mk _ _ _ h _ _ => h

def GoField.validateTag : GoField → String
  | .mk _ _ _ _ v _ => v

def GoField.typ : GoField → GoType
  | .mk _ _ _ _ _ t => t

/-- Go `field.Type.String() == "*multipart.FileHeader" ||
field.Type.String() == "[]*multipart.FileHeader"` (src/swagger.go, lines 162-164). -/
def isUploadField : GoField → Bool
  | .mk _ _ _ _ _ (.tPtr .tFileHeader) => true
  | .mk _ _ _ _ _ (.tSlice (.tPtr .tFileHeader)) => true
  | _ => false

/-- The OpenAPI `Schema` node (src/swagger.go, lines 59-67; the `Example`
field is never assigned by the engine and is omitted).  `properties` is the
sequence of Go map assignments in execution order. -/
inductive Schema where
  | mk (typ : String) (properties : List (String × Schema)) (required : List String)
       (items : Option Schema) (format : String) (description : String)

def Schema.typ : Schema → String
  | .mk t _ _ _ _ _ => t

def Schema.properties : Schema → List (String × Schema)
  | .mk _ p _ _ _ _ => p

def Schema.required : Schema → List String
  | .mk _ _ r _ _ _ => r

def Schema.items : Schema → Option Schema
  | .mk _ _ _ i _ _ => i

def Schema.format : Schema → String
  | .mk _ _ _ _ f _ => f

def Schema.description : Schema → String
  | .mk _ _ _ _ _ d => d

/-- Association list with in-place update: the embedding of a Go map with a
deterministic entry order. -/
def assocLookup {α : Type} : List (String × α) → String → Option α
  | [], _ => none
  | (k', v) :: rest, k => if k' = k then some v else assocLookup rest k

/-- Go map assignment `m[k] = v`: replace in place, or append a new entry. -/
def assocSet {α : Type} : List (String × α) → String → α → List (String × α)
  | [], k, v => [(k, v)]
  | (k', v') :: rest, k, v =>
      if k' = k then (k, v) :: rest else (k', v') :: assocSet rest k v

/-- The component registry `Components.Schemas` (src/swagger.go, lines 69-71). -/
abbrev SchemaMap := List (String × Schema)

/-- An OpenAPI parameter (src/swagger.go, lines 73-79; the `Description`
field is never assigned by the engine and is omitted, like `Schema.Example`). -/
structure Parameter where
  name : String
  In : String
  required : Bool
  schema : Schema

/-- src/swagger.go, lines 55-57. -/
structure MediaType where
  schema : Schema

/-- src/swagger.go, lines 50-53. -/
structure Response where
  description : String
  content : List (String × MediaType)

/-- src/swagger.go, lines 44-48. -/
structure RequestBody where
  description : String
  content : List (String × MediaType)
  required : Bool

/-- src/swagger.go, lines 36-42. -/
structure Operation where
  summary : String
  description : String
  parameters : List Parameter
  requestBody : Option RequestBody
  responses : List (String × Response)

/-- src/swagger.go, lines 28-34. -/
structure PathItem where
  post : Option Operation
  get : Option Operation
  put : Option Operation
  delete : Option Operation
  patch : Option Operation

/-- src/swagger.go, lines 22-26. -/
structure OpenAPIInfo where
  title : String
  version : String
  description : String

/-- src/swagger.go, lines 15-20 and 69-71 (components inlined as the schema map). -/
structure OpenAPISpec where
  openapi : String
  info : OpenAPIInfo
  paths : List (String × PathItem)
  schemas : SchemaMap

/-- src/swagger.go, lines 81-84. -/
structure SwaggerGenerator where
  spec : OpenAPISpec
  pageTitle : String

/-- Handler registration data captured by the App (README app.go, handlerInfo). -/
structure handlerInfo where
  method : String
  path : String
  reqType : Option GoType
  resType : Option GoType
  contentType : String

/-! ### Schema synthesis (src/swagger.go, lines 353-448)

`generateSchema` performs one pointer dereference and dispatches on the kind
(lines 353-385); struct kinds go through `generateStructSchema` (lines
391-448), which is memoized on the schema name and stores the finished schema
at the end.  For structural termination of the Lean recursion, the body of
`generateStructSchema` is inlined at the two struct dispatch sites inside
`generateSchema`; the standalone `generateStructSchema` below has the same
body and `generateSchema_tStruct`/`generateSchema_tPtr_tStruct` record, by
`rfl`, that the dispatch sites agree with it. -/

/-- isFileHeader (src/swagger.go, lines 387-389): the `mime/multipart.FileHeader`
struct type itself. -/
def isFileHeader : GoType → Bool
  | .tFileHeader => true
  | _ => false

def objectSchema : Schema := Schema.mk "object" [] [] none "" ""

/-- The non-recursive arms of the kind switch in generateSchema
(src/swagger.go, lines 358-384): every kind except Struct.  The slice arm
dereferences the element type once and only distinguishes file-header
elements; every other element type yields `items: {type: object}`. -/
def primSchema : GoType → Option Schema
  | .tString => some (Schema.mk "string" [] [] none "" "")
  | .tInt => some (Schema.mk "integer" [] [] none "int64" "")
  | .tFloat => some (Schema.mk "number" [] [] none "double" "")
  | .tBool => some (Schema.mk "boolean" [] [] none "" "")
  | .tFileHeader => some (Schema.mk "string" [] [] none "binary" "")
  | .tSlice e =>
      let it := match e with
        | .tPtr x => x
        | _ => e
      if isFileHeader it then
        some (Schema.mk "array" [] [] (some (Schema.mk "string" [] [] none "binary" "")) "" "")
      else
        some (Schema.mk "array" [] [] (some objectSchema) "" "")
  | .tPtr _ => some objectSchema
  | .tOther => some objectSchema
  | .tStruct _ _ => none

/-- The validation enrichment of a field schema (src/swagger.go, lines
429-439, the part acting on the field schema): description becomes
`"Validation: " ++ tag`, and format becomes `"email"` when the rules contain
`email`. -/
def applyValidation : Schema → String → Schema
  | .mk ty pr rq it fm _, v =>
      Schema.mk ty pr rq it (if goContains v "email" then "email" else fm)
        ("Validation: " ++ v)

/-- Resolved property name of a field (src/swagger.go, lines 411-420): the
json tag's first segment when a json tag is present (non-empty, not `"-"`),
else the form tag's first segment when a form tag is present, else `""`. -/
def resolveFieldName (jsonTag formTag : String) : String :=
  if jsonTag ≠ "" ∧ jsonTag ≠ "-" then firstSeg jsonTag
  else if formTag ≠ "" ∧ formTag ≠ "-" then firstSeg formTag
  else ""

mutual

/-- generateSchema (src/swagger.go, lines 353-385): one pointer dereference,
then dispatch on kind; struct kinds run the (inlined) generateStructSchema
body, everything else is `primSchema`. -/
def generateSchema : GoType → SchemaMap → Schema × SchemaMap
  | .tPtr (.tStruct n fs), st =>
      match assocLookup st (if n = "" then "Anonymous" else n) with
      | some existing => (existing, st)
      | none =>
          let r := genFields fs st
          let schema := Schema.mk "object" r.1 r.2.1 none "" ""
          (schema, assocSet r.2.2 (if n = "" then "Anonymous" else n) schema)
  | .tStruct n fs, st =>
      match assocLookup st (if n = "" then "Anonymous" else n) with
      | some existing => (existing, st)
      | none =>
          let r := genFields fs st
          let schema := Schema.mk "object" r.1 r.2.1 none "" ""
          (schema, assocSet r.2.2 (if n = "" then "Anonymous" else n) schema)
  | .tPtr e, st => ((primSchema e).getD objectSchema, st)
  | t, st => ((primSchema t).getD objectSchema, st)
  termination_by structural t => t

/-- The field loop of generateStructSchema (src/swagger.go, lines 408-442):
resolve each property name (json first, then form), skip empty names,
generate the field schema, enrich it with validation data, and accumulate
the properties map, the required list, and the threaded registry. -/
def genFields : GoFields → SchemaMap → List (String × Schema) × List String × SchemaMap
  | .nil, st => ([], [], st)
  | .cons (.mk jsonTag formTag _u _h validateTag ty) rest, st =>
      let fieldName := resolveFieldName jsonTag formTag
      if fieldName = "" then genFields rest st
      else
        let r0 := generateSchema ty st
        let fieldSchema :=
          if validateTag ≠ "" then applyValidation r0.1 validateTag else r0.1
        let rr := genFields rest r0.2
        ((fieldName, fieldSchema) :: rr.1,
         (if validateTag ≠ "" ∧ goContains validateTag "required" = true then
            fieldName :: rr.2.1
          else rr.2.1),
         rr.2.2)
  termination_by structural fs => fs

end

/-- generateStructSchema (src/swagger.go, lines 391-448): look the schema name
up in the registry first (anonymous structs share the name `"Anonymous"`) and
return the cached node unchanged on a hit; otherwise synthesize the object
schema from the fields and only then store it under the name. -/
def generateStructSchema (name : String) (fields : GoFields) (st : SchemaMap) :
    Schema × SchemaMap :=
  match assocLookup st (if name = "" then "Anonymous" else name) with
  | some existing => (existing, st)
  | none =>
      let r := genFields fields st
      let schema := Schema.mk "object" r.1 r.2.1 none "" ""
      (schema, assocSet r.2.2 (if name = "" then "Anonymous" else name) schema)

theorem generateSchema_tStruct (n : String) (fs : GoFields) (st : SchemaMap) :
    generateSchema (GoType.tStruct n fs) st = generateStructSchema n fs st := rfl

theorem generateSchema_tPtr_tStruct (n : String) (fs : GoFields) (st : SchemaMap) :
    generateSchema (GoType.tPtr (GoType.tStruct n fs)) st = generateStructSchema n fs st := rfl

/-! ### Parameter synthesis (src/swagger.go, lines 191-254)

`generateParameters` loops over the struct's fields.  A field with a present
uri tag (non-empty, not `"-"`) yields a required path parameter and skips all
further sources for that field (`continue`); otherwise a present form tag
yields a query parameter unless the name is already claimed by a path
placeholder; required-ness of query parameters comes from the validate tag.
Header tags are never consulted.  `generateSchema` is called on each emitted
field's type, threading the registry.  The Go loop calls
`requestType.NumField()`, which panics on non-struct types (`none` below);
a nil requestType returns an empty list before the loop. -/

/-- The field loop of generateParameters (src/swagger.go, lines 202-251). -/
def generateParametersFields (pathParams : List String) :
    GoFields → SchemaMap → List Parameter × SchemaMap
  | .nil, st => ([], st)
  | .cons f rest, st =>
      if f.uriTag ≠ "" ∧ f.uriTag ≠ "-" then
        let paramName := firstSeg f.uriTag
        if paramName = "" then generateParametersFields pathParams rest st
        else
          let r0 := generateSchema f.typ st
          let rr := generateParametersFields pathParams rest r0.2
          (Parameter.mk paramName "path" true r0.1 :: rr.1, rr.2)
      else if f.formTag ≠ "" ∧ f.formTag ≠ "-" then
        let paramName := firstSeg f.formTag
        if paramName = "" then generateParametersFields pathParams rest st
        else if contains pathParams paramName then
          generateParametersFields pathParams rest st
        else
          let r0 := generateSchema f.typ st
          let req : Bool :=
            if f.validateTag = "" then false else goContains f.validateTag "required"
          let rr := generateParametersFields pathParams rest r0.2
          (Parameter.mk paramName "query" req r0.1 :: rr.1, rr.2)
      else generateParametersFields pathParams rest st

/-- generateParameters (src/swagger.go, lines 191-254).  `none` models the
`reflect.NumField` panic on a non-struct, non-nil request type. -/
def generateParameters (requestType : Option GoType) (path : String) (st : SchemaMap) :
    Option (List Parameter × SchemaMap) :=
  match requestType with
  | none => some ([], st)
  | some (.tStruct _ fields) =>
      some (generateParametersFields (extractPathParameters path) fields st)
  | some _ => none

/-! ### Content-type inference (src/swagger.go, lines 139-189) -/

/-- The flag-setting loop of detectSwaggerContentTypes (src/swagger.go,
lines 148-166): `(hasJSON, hasForm, hasFile)`. -/
def detectFlags : GoFields → Bool × Bool × Bool
  | .nil => (false, false, false)
  | .cons f rest =>
      let r := detectFlags rest
      ((f.jsonTag != "" && f.jsonTag != "-") || r.1,
       (f.formTag != "" && f.formTag != "-") || r.2.1,
       isUploadField f || r.2.2)

/-- detectSwaggerContentTypes (src/swagger.go, lines 139-189).  `none` models
the `reflect.NumField` panic on a non-struct, non-nil request type; a nil
request type yields the JSON default before the loop. -/
def detectSwaggerContentTypes (requestType : Option GoType) : Option (List String) :=
  match requestType with
  | none => some ["application/json"]
  | some (.tStruct _ fields) =>
      let flags := detectFlags fields
      some
        (if flags.2.2 then ["multipart/form-data"]
         else if flags.2.1 then
           "application/x-www-form-urlencoded" ::
             (if flags.1 then ["application/json"] else [])
         else if flags.1 then ["application/json"]
         else ["application/json"])
  | some _ => none

/-! ### AddEndpoint and Generate (src/swagger.go, lines 126-137 and 279-351) -/

/-- The fixed 400 error schema of every operation (src/swagger.go, lines 296-303). -/
def badRequestSchema : Schema :=
  Schema.mk "object"
    [("status", Schema.mk "integer" [] [] none "" ""),
     ("message", Schema.mk "string" [] [] none "" "")]
    [] none "" ""

/-- The request-body content loop of AddEndpoint (src/swagger.go, lines
323-328): one `generateSchema` call per detected content type, threading
the registry. -/
def contentFold : List String → GoType → SchemaMap → List (String × MediaType) × SchemaMap
  | [], _, st => ([], st)
  | ct :: rest, req, st =>
      let r0 := generateSchema req st
      let rr := contentFold rest req r0.2
      ((ct, MediaType.mk r0.1) :: rr.1, rr.2)

/-- The operation construction of AddEndpoint (src/swagger.go, lines 281-330),
separated from the paths-map update.  A nil response type panics (`none`):
the Go code calls `sg.generateSchema(responseType)` on the nil interface.
GET/HEAD requests get parameters; all other methods with a request type get a
request body with one media type per detected content type. -/
def buildOperation (method path : String) (requestType responseType : Option GoType)
    (st : SchemaMap) : Option (Operation × SchemaMap) :=
  match responseType with
  | none => none
  | some rt =>
      let r0 := generateSchema rt st
      let responses :=
        [("200", Response.mk "Success" [("application/json", MediaType.mk r0.1)]),
         ("400", Response.mk "Bad Request" [("application/json", MediaType.mk badRequestSchema)])]
      match requestType with
      | none => some (Operation.mk (method ++ " " ++ path) "" [] none responses, r0.2)
      | some req =>
          if method = "GET" ∨ method = "HEAD" then
            match generateParameters (some req) path r0.2 with
            | none => none
            | some pr =>
                some (Operation.mk (method ++ " " ++ path) "" pr.1 none responses, pr.2)
          else
            match detectSwaggerContentTypes (some req) with
            | none => none
            | some cts =>
                let cr := contentFold cts req r0.2
                some
                  (Operation.mk (method ++ " " ++ path) "" []
                     (some (RequestBody.mk "Request body" cr.1 true)) responses,
                   cr.2)

/-- The method switch of AddEndpoint (src/swagger.go, lines 337-348): write
the operation into the path item's slot for the five known verbs, leave the
item unchanged otherwise. -/
def setSlot (item : PathItem) (method : String) (op : Operation) : PathItem :=
  if method = "POST" then { item with post := some op }
  else if method = "GET" then { item with get := some op }
  else if method = "PUT" then { item with put := some op }
  else if method = "DELETE" then { item with delete := some op }
  else if method = "PATCH" then { item with patch := some op }
  else item

/-- Read a path item's slot for a method (the five verbs of the switch). -/
def slotGet (item : PathItem) (method : String) : Option Operation :=
  if method = "POST" then item.post
  else if method = "GET" then item.get
  else if method = "PUT" then item.put
  else if method = "DELETE" then item.delete
  else if method = "PATCH" then item.patch
  else none

def emptyPathItem : PathItem := PathItem.mk none none none none none

/-- AddEndpoint (src/swagger.go, lines 279-351): build the operation, fetch
or create the path item, set the method slot, store the item.  The
`contentType` argument is accepted and ignored, as in the source.  `none`
models a panic inside operation construction. -/
def AddEndpoint (method path : String) (requestType responseType : Option GoType)
    (contentType : String) (g : SwaggerGenerator) : Option SwaggerGenerator :=
  match buildOperation method path requestType responseType g.spec.schemas with
  | none => none
  | some (op, m') =>
      let item := (assocLookup g.spec.paths path).getD emptyPathItem
      let item' := setSlot item method op
      some
        { g with
          spec :=
            { g.spec with schemas := m', paths := assocSet g.spec.paths path item' } }

/-- The handler loop of Generate (src/swagger.go, lines 128-130); the list
fixes one iteration order of the Go handlers map (whose keys are the distinct
`"METHOD:PATH"` strings). -/
def processHandlers : List handlerInfo → SwaggerGenerator → Option SwaggerGenerator
  | [], g => some g
  | h :: rest, g =>
      match AddEndpoint h.method h.path h.reqType h.resType h.contentType g with
      | none => none
      | some g' => processHandlers rest g'

/-- Generate (src/swagger.go, lines 126-137): process every handler, then
serialize the spec.  The JSON round trip through `json.Marshal`/`Unmarshal`
is a deterministic function of the spec value, so the output document is
modelled by the spec value itself. -/
def Generate (handlers : List handlerInfo) (g : SwaggerGenerator) :
    Option (OpenAPISpec × SwaggerGenerator) :=
  match processHandlers handlers g with
  | none => none
  | some g' => some (g'.spec, g')

/-- NewSwaggerGenerator (src/swagger.go, lines 100-123), without options. -/
def NewSwaggerGenerator (title version : String) : SwaggerGenerator :=
  SwaggerGenerator.mk
    (OpenAPISpec.mk "3.0.0"
      (OpenAPIInfo.mk title version "Auto-generated API documentation") [] [])
    title

/-! ### The fuel-indexed embedding for possibly-cyclic reflect types

Go's `reflect.Type` values form a graph that may contain cycles (a struct
with a field pointing back to its own type), which the tree type `GoType`
cannot represent.  For the claims about such shapes, `RType` refers to struct
types by name and an environment maps each name to its field list, exactly as
`reflect` resolves a named type to its fields.  The functions below mirror
`generateSchema`/`generateStructSchema` (src/swagger.go, lines 353-448)
branch by branch; the extra `fuel` argument only bounds the recursion depth,
and `none` means the computation did not finish within `fuel` nested calls.
A result of `none` for every fuel is therefore a non-terminating recursion
in the source. -/

/-- A reflect type with struct types referred to by name. -/
inductive RType where
  | rString
  | rInt
  | rFloat
  | rBool
  | rFileHeader
  | rOther
  | rPtr (elem : RType)
  | rSlice (elem : RType)
  | rNamed (name : String)

/-- A struct field in the named-type embedding. -/
structure RField where
  jsonTag : String
  formTag : String
  uriTag : String
  headerTag : String
  validateTag : String
  typ : RType

/-- The type environment: struct name to field list, as resolved by reflect. -/
abbrev REnv := List (String × List RField)

def isFileHeaderR : RType → Bool
  | .rFileHeader => true
  | _ => false

/-- The non-recursive arms of the kind switch, named-type embedding
(src/swagger.go, lines 358-384). -/
def primSchemaR : RType → Option Schema
  | .rString => some (Schema.mk "string" [] [] none "" "")
  | .rInt => some (Schema.mk "integer" [] [] none "int64" "")
  | .rFloat => some (Schema.mk "number" [] [] none "double" "")
  | .rBool => some (Schema.mk "boolean" [] [] none "" "")
  | .rFileHeader => some (Schema.mk "string" [] [] none "binary" "")
  | .rSlice e =>
      let it := match e with
        | .rPtr x => x
        | _ => e
      if isFileHeaderR it then
        some (Schema.mk "array" [] [] (some (Schema.mk "string" [] [] none "binary" "")) "" "")
      else
        some (Schema.mk "array" [] [] (some objectSchema) "" "")
  | .rPtr _ => some objectSchema
  | .rOther => some objectSchema
  | .rNamed _ => none

mutual

/-- generateSchema in the named-type embedding (src/swagger.go, lines
353-385): one pointer dereference, then dispatch; named types resolve their
fields through the environment and run generateStructSchemaF.  A name the
environment does not know behaves like the default kind arm. -/
def generateSchemaF : Nat → REnv → RType → SchemaMap → Option (Schema × SchemaMap)
  | 0, _, _, _ => none
  | fuel + 1, env, t, st =>
      let t1 := match t with
        | .rPtr e => e
        | _ => t
      match t1 with
      | .rNamed n =>
          match assocLookup env n with
          | some fields => generateStructSchemaF fuel env n fields st
          | none => some (objectSchema, st)
      | _ => some ((primSchemaR t1).getD objectSchema, st)

/-- generateStructSchema in the named-type embedding (src/swagger.go, lines
391-448): memo lookup first, then the field loop, then the store. -/
def generateStructSchemaF : Nat → REnv → String → List RField → SchemaMap →
    Option (Schema × SchemaMap)
  | 0, _, _, _, _ => none
  | fuel + 1, env, name, fields, st =>
      let schemaName := if name = "" then "Anonymous" else name
      match assocLookup st schemaName with
      | some existing => some (existing, st)
      | none =>
          match genFieldsF fuel env fields st with
          | none => none
          | some r =>
              let schema := Schema.mk "object" r.1 r.2.1 none "" ""
              some (schema, assocSet r.2.2 schemaName schema)

/-- The field loop of generateStructSchema in the named-type embedding
(src/swagger.go, lines 408-442). -/
def genFieldsF : Nat → REnv → List RField → SchemaMap →
    Option (List (String × Schema) × List String × SchemaMap)
  | 0, _, _, _ => none
  | _ + 1, _, [], st => some ([], [], st)
  | fuel + 1, env, f :: rest, st =>
      let fieldName := resolveFieldName f.jsonTag f.formTag
      if fieldName = "" then genFieldsF fuel env rest st
      else
        match generateSchemaF fuel env f.typ st with
        | none => none
        | some r0 =>
            let fieldSchema :=
              if f.validateTag ≠ "" then applyValidation r0.1 f.validateTag else r0.1
            match genFieldsF fuel env rest r0.2 with
            | none => none
            | some rr =>
                some ((fieldName, fieldSchema) :: rr.1,
                  (if f.validateTag ≠ "" ∧ goContains f.validateTag "required" = true then
                     fieldName :: rr.2.1
                   else rr.2.1),
                  rr.2.2)

end

/-- The self-referential shape of TestSwagger_Schema_EdgeCases/Recursive_Schema:
type Node struct has Name string with tag json:"name" and Next *Node with tag
json:"next". -/
def nodeFields : List RField :=
  [RField.mk "name" "" "" "" "" RType.rString,
   RField.mk "next" "" "" "" "" (RType.rPtr (RType.rNamed "Node"))]

/-- The environment resolving the single named type `Node`. -/
def nodeEnv : REnv := [("Node", nodeFields)]

/-- An acyclic named type, to check that the fuel-indexed embedding does
finish on non-recursive shapes (so that `none` for every fuel really means
divergence, not an artifact of the embedding). -/
def userEnvR : REnv := [("User", [RField.mk "id" "" "" "" "" RType.rInt])]

theorem generateSchemaF_finishes_on_primitive :
    generateSchemaF 1 nodeEnv RType.rString []
      = some (Schema.mk "string" [] [] none "" "", []) := rfl

theorem generateSchemaF_finishes_on_acyclic_struct :
    generateSchemaF 4 userEnvR (RType.rNamed "User") []
      = some (Schema.mk "object" [("id", Schema.mk "integer" [] [] none "int64" "")]
            [] none "" "",
          [("User",
            Schema.mk "object" [("id", Schema.mk "integer" [] [] none "int64" "")]
              [] none "" "")]) := rfl

/-! ### Association list lemmas -/

theorem assocLookup_set_self {α : Type} (l : List (String × α)) (k : String) (v : α) :
    assocLookup (assocSet l k v) k = some v := by
  induction l with
  | nil => simp [assocSet, assocLookup]
  | cons hd tl ih =>
      obtain ⟨k', v'⟩ := hd
      by_cases h : k' = k
      · subst h; simp [assocSet, assocLookup]
      · simp [assocSet, assocLookup, h, ih]

theorem assocLookup_set_ne {α : Type} (l : List (String × α)) (k k' : String) (v : α)
    (h : k' ≠ k) : assocLookup (assocSet l k v) k' = assocLookup l k' := by
  have h' : k ≠ k' := Ne.symm h
  induction l with
  | nil => simp [assocSet, assocLookup, h']
  | cons hd tl ih =>
      obtain ⟨k0, v0⟩ := hd
      by_cases h0 : k0 = k
      · subst h0
        simp [assocSet, assocLookup, h']
      · simp [assocSet, assocLookup, h0, ih]

theorem assocSet_of_lookup_eq {α : Type} (l : List (String × α)) (k : String) (v : α)
    (h : assocLookup l k = some v) : assocSet l k v = l := by
  induction l with
  | nil => simp [assocLookup] at h
  | cons hd tl ih =>
      obtain ⟨k0, v0⟩ := hd
      by_cases h0 : k0 = k
      · subst h0
        simp [assocLookup] at h
        simp [assocSet, h]
      · simp [assocLookup, h0] at h
        simp [assocSet, h0, ih h]

/-! ### The recursive-shape claim: the cycle guard is missing

`generateStructSchema` (src/swagger.go, lines 391-448) stores the schema
under its name only after the field loop (line 445), so when a field's type
refers back to the struct being synthesized, the recursive call finds the
registry unchanged and re-enters the synthesis with the very same arguments.
The lemma below shows the computation exhausts any fuel. -/

theorem nodeCycleAux : ∀ (fuel : Nat) (st : SchemaMap), assocLookup st "Node" = none →
    generateStructSchemaF fuel nodeEnv "Node" nodeFields st = none
    ∧ genFieldsF fuel nodeEnv nodeFields st = none
    ∧ genFieldsF fuel nodeEnv
        [RField.mk "next" "" "" "" "" (RType.rPtr (RType.rNamed "Node"))] st = none
    ∧ generateSchemaF fuel nodeEnv (RType.rPtr (RType.rNamed "Node")) st = none := by
  intro fuel
  induction fuel using Nat.strong_induction_on with
  | _ fuel ih =>
      intro st hst
      match fuel with
      | 0 => exact ⟨rfl, rfl, rfl, rfl⟩
      | fuel + 1 =>
          obtain ⟨ihS, ihF, ihN, ihP⟩ := ih fuel (by omega) st hst
          have hname : resolveFieldName "name" "" = "name" := rfl
          have hnext : resolveFieldName "next" "" = "next" := rfl
          refine ⟨?_, ?_, ?_, ?_⟩
          · simp [generateStructSchemaF, hst, ihF]
          · cases fuel with
            | zero => rfl
            | succ k =>
                have hPtrK : generateSchemaF k nodeEnv
                    (RType.rPtr (RType.rNamed "Node")) st = none :=
                  (ih k (by omega) st hst).2.2.2
                have e1 : generateSchemaF (k + 1) nodeEnv RType.rString st
                    = some (Schema.mk "string" [] [] none "" "", st) := rfl
                simp [genFieldsF, nodeFields, hname, hnext, e1, hPtrK]
          · simp [genFieldsF, hnext, ihP]
          · have hlk : assocLookup nodeEnv "Node" = some nodeFields := rfl
            simp [generateSchemaF, hlk, ihS]

/-- C1: for every composite shape, schema synthesis is claimed to terminate,
self-referential shapes included, by returning the in-progress name's
reference.  On the code this fails: `generateStructSchema` registers the
schema only after the field loop, so synthesizing the self-referential shape
`type Node struct { Name string; Next *Node }` re-enters itself with an
unchanged registry and exhausts every recursion bound (the fuel-indexed
embedding returns `none` for all fuel), instead of terminating. -/
theorem C1_recursive_shape_synthesis_diverges :
    (∀ fuel : Nat, generateSchemaF fuel nodeEnv (RType.rNamed "Node") [] = none)
    ∧ ∀ fuel : Nat, generateStructSchemaF fuel nodeEnv "Node" nodeFields [] = none := by
  constructor
  · intro fuel
    match fuel with
    | 0 => rfl
    | fuel + 1 =>
        have h := (nodeCycleAux fuel [] rfl).1
        have hlk : assocLookup nodeEnv "Node" = some nodeFields := rfl
        simp [generateSchemaF, hlk, h]
  · exact fun fuel => (nodeCycleAux fuel [] rfl).1

/-! ### Registry preservation and replay

`SubMap a b` says every entry of registry `a` is present in `b` with the same
schema.  Every synthesis call preserves the entries present when it starts
(`generateSchema_pres`), and a call replayed against any registry extending
its own final registry returns the same schema without touching the registry
(`generateSchema_replay`): the struct case always leaves its own name mapped
to its result, so the replay hits the memo. -/

def SubMap (a b : SchemaMap) : Prop :=
  ∀ k v, assocLookup a k = some v → assocLookup b k = some v

theorem subMap_refl (a : SchemaMap) : SubMap a a := fun _ _ h => h

theorem subMap_trans {a b c : SchemaMap} (h1 : SubMap a b) (h2 : SubMap b c) :
    SubMap a c := fun k v h => h2 k v (h1 k v h)

/-- generateStructSchema preserves initially-present registry entries,
given that its field loop does. -/
theorem generateStructSchema_pres_of (n : String) (fs : GoFields) (st : SchemaMap)
    (hf : SubMap st (genFields fs st).2.2) :
    SubMap st (generateStructSchema n fs st).2 := by
  unfold generateStructSchema
  cases hlk : assocLookup st (if n = "" then "Anonymous" else n) with
  | some ex => exact fun _ _ h => h
  | none =>
      intro k v hkv
      by_cases hk : k = (if n = "" then "Anonymous" else n)
      · rw [hk] at hkv
        rw [hkv] at hlk
        exact absurd hlk (by simp)
      · simpa [assocLookup_set_ne _ _ _ _ hk] using hf k v hkv

mutual

theorem generateSchema_pres : ∀ (t : GoType) (st : SchemaMap),
    SubMap st (generateSchema t st).2
  | .tPtr (.tStruct n fs), st => by
      rw [generateSchema_tPtr_tStruct]
      exact generateStructSchema_pres_of n fs st (genFields_pres fs st)
  | .tStruct n fs, st => by
      rw [generateSchema_tStruct]
      exact generateStructSchema_pres_of n fs st (genFields_pres fs st)
  | .tPtr .tString, st => fun _ _ h => h
  | .tPtr .tInt, st => fun _ _ h => h
  | .tPtr .tFloat, st => fun _ _ h => h
  | .tPtr .tBool, st => fun _ _ h => h
  | .tPtr .tFileHeader, st => fun _ _ h => h
  | .tPtr .tOther, st => fun _ _ h => h
  | .tPtr (.tPtr _), st => fun _ _ h => h
  | .tPtr (.tSlice _), st => fun _ _ h => h
  | .tString, st => fun _ _ h => h
  | .tInt, st => fun _ _ h => h
  | .tFloat, st => fun _ _ h => h
  | .tBool, st => fun _ _ h => h
  | .tFileHeader, st => fun _ _ h => h
  | .tOther, st => fun _ _ h => h
  | .tSlice _, st => fun _ _ h => h
  termination_by structural t _ => t

theorem genFields_pres : ∀ (fs : GoFields) (st : SchemaMap),
    SubMap st (genFields fs st).2.2
  | .nil, st => fun _ _ h => h
  | .cons (.mk j fo u hd v ty) rest, st => by
      show SubMap st (genFields (.cons (.mk j fo u hd v ty) rest) st).2.2
      by_cases hfn : resolveFieldName j fo = ""
      · simpa [genFields, hfn] using genFields_pres rest st
      · simpa [genFields, hfn] using
          subMap_trans (generateSchema_pres ty st)
            (genFields_pres rest (generateSchema ty st).2)
  termination_by structural fs _ => fs

end

/-- The struct-level replay underlying `generateSchema_replay`: a cache hit
or the freshly stored entry makes the second run hit the memo. -/
theorem generateStructSchema_replay (n : String) (fs : GoFields) (st st2 : SchemaMap)
    (h : SubMap (generateStructSchema n fs st).2 st2) :
    generateStructSchema n fs st2 = ((generateStructSchema n fs st).1, st2) := by
  unfold generateStructSchema at *
  cases hlk : assocLookup st (if n = "" then "Anonymous" else n) with
  | some ex =>
      rw [hlk] at h
      have h2 : assocLookup st2 (if n = "" then "Anonymous" else n) = some ex :=
        h _ ex hlk
      simp [hlk, h2]
  | none =>
      rw [hlk] at h
      simp only at h
      have hself :
          assocLookup
            (assocSet (genFields fs st).2.2 (if n = "" then "Anonymous" else n)
              (Schema.mk "object" (genFields fs st).1 (genFields fs st).2.1 none "" ""))
            (if n = "" then "Anonymous" else n)
          = some (Schema.mk "object" (genFields fs st).1 (genFields fs st).2.1 none "" "") :=
        assocLookup_set_self _ _ _
      have h2 := h _ _ hself
      simp [hlk, h2]


/-- Replaying a synthesis against any registry extending its own final
registry returns the same schema and leaves the new registry untouched. -/
theorem generateSchema_replay : ∀ (t : GoType) (st st2 : SchemaMap),
    SubMap (generateSchema t st).2 st2 →
    generateSchema t st2 = ((generateSchema t st).1, st2)
  | .tPtr (.tStruct n fs), st, st2, h => by
      rw [generateSchema_tPtr_tStruct, generateSchema_tPtr_tStruct]
      rw [generateSchema_tPtr_tStruct] at h
      exact generateStructSchema_replay n fs st st2 h
  | .tStruct n fs, st, st2, h => by
      rw [generateSchema_tStruct, generateSchema_tStruct]
      rw [generateSchema_tStruct] at h
      exact generateStructSchema_replay n fs st st2 h
  | .tPtr .tString, _, _, _ => rfl
  | .tPtr .tInt, _, _, _ => rfl
  | .tPtr .tFloat, _, _, _ => rfl
  | .tPtr .tBool, _, _, _ => rfl
  | .tPtr .tFileHeader, _, _, _ => rfl
  | .tPtr .tOther, _, _, _ => rfl
  | .tPtr (.tPtr _), _, _, _ => rfl
  | .tPtr (.tSlice _), _, _, _ => rfl
  | .tString, _, _, _ => rfl
  | .tInt, _, _, _ => rfl
  | .tFloat, _, _, _ => rfl
  | .tBool, _, _, _ => rfl
  | .tFileHeader, _, _, _ => rfl
  | .tOther, _, _, _ => rfl
  | .tSlice _, _, _, _ => rfl

/-- The parameter field loop preserves initially-present registry entries. -/
theorem generateParametersFields_pres : ∀ (pp : List String) (fs : GoFields)
    (st : SchemaMap), SubMap st (generateParametersFields pp fs st).2
  | _, .nil, _ => fun _ _ h => h
  | pp, .cons f rest, st => by
      show SubMap st (generateParametersFields pp (.cons f rest) st).2
      by_cases h1 : f.uriTag ≠ "" ∧ f.uriTag ≠ "-"
      · by_cases h2 : firstSeg f.uriTag = ""
        · simpa [generateParametersFields, h1, h2] using
            generateParametersFields_pres pp rest st
        · simpa [generateParametersFields, h1, h2] using
            subMap_trans (generateSchema_pres f.typ st)
              (generateParametersFields_pres pp rest (generateSchema f.typ st).2)
      · by_cases h3 : f.formTag ≠ "" ∧ f.formTag ≠ "-"
        · by_cases h4 : firstSeg f.formTag = ""
          · simpa [generateParametersFields, h1, h3, h4] using
              generateParametersFields_pres pp rest st
          · by_cases h5 : contains pp (firstSeg f.formTag) = true
            · simpa [generateParametersFields, h1, h3, h4, h5] using
                generateParametersFields_pres pp rest st
            · simpa [generateParametersFields, h1, h3, h4, h5] using
                subMap_trans (generateSchema_pres f.typ st)
                  (generateParametersFields_pres pp rest (generateSchema f.typ st).2)
        · simpa [generateParametersFields, h1, h3] using
            generateParametersFields_pres pp rest st

/-- Replaying the parameter field loop against a registry extending its final
registry yields the same parameters and leaves the registry untouched. -/
theorem generateParametersFields_replay : ∀ (pp : List String) (fs : GoFields)
    (st st2 : SchemaMap),
    SubMap (generateParametersFields pp fs st).2 st2 →
    generateParametersFields pp fs st2 = ((generateParametersFields pp fs st).1, st2)
  | _, .nil, _, _, _ => rfl
  | pp, .cons f rest, st, st2, h => by
      by_cases h1 : f.uriTag ≠ "" ∧ f.uriTag ≠ "-"
      · by_cases h2 : firstSeg f.uriTag = ""
        · have hrest : generateParametersFields pp rest st2
              = ((generateParametersFields pp rest st).1, st2) :=
            generateParametersFields_replay pp rest st st2
              (by simpa [generateParametersFields, h1, h2] using h)
          simp [generateParametersFields, h1, h2, hrest]
        · have hsub1 : SubMap (generateSchema f.typ st).2
              (generateParametersFields pp rest (generateSchema f.typ st).2).2 :=
            generateParametersFields_pres pp rest (generateSchema f.typ st).2
          have hst2 : SubMap (generateSchema f.typ st).2 st2 :=
            subMap_trans hsub1 (by simpa [generateParametersFields, h1, h2] using h)
          have hg : generateSchema f.typ st2 = ((generateSchema f.typ st).1, st2) :=
            generateSchema_replay f.typ st st2 hst2
          have hrest : generateParametersFields pp rest st2
              = ((generateParametersFields pp rest (generateSchema f.typ st).2).1, st2) :=
            generateParametersFields_replay pp rest (generateSchema f.typ st).2 st2
              (by simpa [generateParametersFields, h1, h2] using h)
          simp [generateParametersFields, h1, h2, hg, hrest]
      · by_cases h3 : f.formTag ≠ "" ∧ f.formTag ≠ "-"
        · by_cases h4 : firstSeg f.formTag = ""
          · have hrest : generateParametersFields pp rest st2
                = ((generateParametersFields pp rest st).1, st2) :=
              generateParametersFields_replay pp rest st st2
                (by simpa [generateParametersFields, h1, h3, h4] using h)
            simp [generateParametersFields, h1, h3, h4, hrest]
          · by_cases h5 : contains pp (firstSeg f.formTag) = true
            · have hrest : generateParametersFields pp rest st2
                  = ((generateParametersFields pp rest st).1, st2) :=
                generateParametersFields_replay pp rest st st2
                  (by simpa [generateParametersFields, h1, h3, h4, h5] using h)
              simp [generateParametersFields, h1, h3, h4, h5, hrest]
            · have hsub1 : SubMap (generateSchema f.typ st).2
                  (generateParametersFields pp rest (generateSchema f.typ st).2).2 :=
                generateParametersFields_pres pp rest (generateSchema f.typ st).2
              have hst2 : SubMap (generateSchema f.typ st).2 st2 :=
                subMap_trans hsub1
                  (by simpa [generateParametersFields, h1, h3, h4, h5] using h)
              have hg : generateSchema f.typ st2 = ((generateSchema f.typ st).1, st2) :=
                generateSchema_replay f.typ st st2 hst2
              have hrest : generateParametersFields pp rest st2
                  = ((generateParametersFields pp rest (generateSchema f.typ st).2).1, st2) :=
                generateParametersFields_replay pp rest (generateSchema f.typ st).2 st2
                  (by simpa [generateParametersFields, h1, h3, h4, h5] using h)
              simp [generateParametersFields, h1, h3, h4, h5, hg, hrest]
        · have hrest : generateParametersFields pp rest st2
              = ((generateParametersFields pp rest st).1, st2) :=
            generateParametersFields_replay pp rest st st2
              (by simpa [generateParametersFields, h1, h3] using h)
          simp [generateParametersFields, h1, h3, hrest]

/-- The request-body content loop preserves initially-present registry entries. -/
theorem contentFold_pres (cts : List String) (req : GoType) (st : SchemaMap) :
    SubMap st (contentFold cts req st).2 := by
  induction cts generalizing st with
  | nil => exact fun _ _ h => h
  | cons ct rest ih =>
      simpa [contentFold] using
        subMap_trans (generateSchema_pres req st) (ih (generateSchema req st).2)

/-- Replaying the request-body content loop against a registry extending its
final registry yields the same content and leaves the registry untouched. -/
theorem contentFold_replay (cts : List String) (req : GoType) (st st2 : SchemaMap)
    (h : SubMap (contentFold cts req st).2 st2) :
    contentFold cts req st2 = ((contentFold cts req st).1, st2) := by
  induction cts generalizing st with
  | nil => rfl
  | cons ct rest ih =>
      have hsub1 : SubMap (generateSchema req st).2
          (contentFold rest req (generateSchema req st).2).2 :=
        contentFold_pres rest req (generateSchema req st).2
      have hst2 : SubMap (generateSchema req st).2 st2 :=
        subMap_trans hsub1 (by simpa [contentFold] using h)
      have hg : generateSchema req st2 = ((generateSchema req st).1, st2) :=
        generateSchema_replay req st st2 hst2
      have hrest : contentFold rest req st2
          = ((contentFold rest req (generateSchema req st).2).1, st2) :=
        ih (generateSchema req st).2 (by simpa [contentFold] using h)
      simp [contentFold, hg, hrest]

theorem generateParameters_pres (rq : Option GoType) (p : String) (st : SchemaMap)
    (ps : List Parameter) (m' : SchemaMap)
    (h : generateParameters rq p st = some (ps, m')) : SubMap st m' := by
  cases rq with
  | none =>
      simp only [generateParameters, Option.some.injEq, Prod.mk.injEq] at h
      rw [← h.2]
      exact subMap_refl st
  | some t =>
      cases t <;> simp only [generateParameters, Option.some.injEq, Prod.mk.injEq] at h <;>
        try exact absurd h (by simp)
      case tStruct n fields =>
        have h2 : (generateParametersFields (extractPathParameters p) fields st).2 = m' := by
          rw [h]
        rw [← h2]
        exact generateParametersFields_pres (extractPathParameters p) fields st

theorem generateParameters_replay (rq : Option GoType) (p : String) (st st2 : SchemaMap)
    (ps : List Parameter) (m' : SchemaMap)
    (h : generateParameters rq p st = some (ps, m')) (hsub : SubMap m' st2) :
    generateParameters rq p st2 = some (ps, st2) := by
  cases rq with
  | none =>
      simp only [generateParameters, Option.some.injEq, Prod.mk.injEq] at h ⊢
      exact ⟨h.1, trivial⟩
  | some t =>
      cases t <;> simp only [generateParameters, Option.some.injEq, Prod.mk.injEq] at h ⊢ <;>
        try exact absurd h (by simp)
      case tStruct n fields =>
        have h2 : (generateParametersFields (extractPathParameters p) fields st).2 = m' := by
          rw [h]
        have h1 : (generateParametersFields (extractPathParameters p) fields st).1 = ps := by
          rw [h]
        have hr := generateParametersFields_replay (extractPathParameters p) fields st st2
          (by rw [h2]; exact hsub)
        rw [hr, h1]

/-- buildOperation preserves initially-present registry entries. -/
theorem buildOperation_pres (m p : String) (rq rs : Option GoType) (st : SchemaMap)
    (op : Operation) (m' : SchemaMap)
    (h : buildOperation m p rq rs st = some (op, m')) : SubMap st m' := by
  cases rs with
  | none => simp [buildOperation] at h
  | some rt =>
      cases rq with
      | none =>
          simp only [buildOperation, Option.some.injEq, Prod.mk.injEq] at h
          rw [← h.2]
          exact generateSchema_pres rt st
      | some req =>
          by_cases hm : m = "GET" ∨ m = "HEAD"
          · simp only [buildOperation, if_pos hm] at h
            cases hp : generateParameters (some req) p (generateSchema rt st).2 with
            | none => rw [hp] at h; exact absurd h (by simp)
            | some pr =>
                rw [hp] at h
                simp only [Option.some.injEq, Prod.mk.injEq] at h
                rw [← h.2]
                exact subMap_trans (generateSchema_pres rt st)
                  (generateParameters_pres (some req) p (generateSchema rt st).2 pr.1 pr.2
                    (by rw [hp]))
          · simp only [buildOperation, if_neg hm] at h
            cases hd : detectSwaggerContentTypes (some req) with
            | none => rw [hd] at h; exact absurd h (by simp)
            | some cts =>
                rw [hd] at h
                simp only [Option.some.injEq, Prod.mk.injEq] at h
                rw [← h.2]
                exact subMap_trans (generateSchema_pres rt st)
                  (contentFold_pres cts req (generateSchema rt st).2)

/-- Replaying buildOperation against a registry extending its final registry
yields the same operation and leaves the registry untouched. -/
theorem buildOperation_replay (m p : String) (rq rs : Option GoType) (st st2 : SchemaMap)
    (op : Operation) (m' : SchemaMap)
    (h : buildOperation m p rq rs st = some (op, m')) (hsub : SubMap m' st2) :
    buildOperation m p rq rs st2 = some (op, st2) := by
  cases rs with
  | none => simp [buildOperation] at h
  | some rt =>
      cases rq with
      | none =>
          simp only [buildOperation, Option.some.injEq, Prod.mk.injEq] at h ⊢
          have hg : generateSchema rt st2 = ((generateSchema rt st).1, st2) :=
            generateSchema_replay rt st st2 (by rw [h.2]; exact hsub)
          rw [hg]
          exact ⟨h.1, rfl⟩
      | some req =>
          by_cases hm : m = "GET" ∨ m = "HEAD"
          · simp only [buildOperation, if_pos hm] at h ⊢
            cases hp : generateParameters (some req) p (generateSchema rt st).2 with
            | none => rw [hp] at h; exact absurd h (by simp)
            | some pr =>
                rw [hp] at h
                simp only [Option.some.injEq, Prod.mk.injEq] at h
                have hsub0 : SubMap (generateSchema rt st).2 st2 :=
                  subMap_trans
                    (generateParameters_pres (some req) p (generateSchema rt st).2 pr.1 pr.2
                      (by rw [hp]))
                    (by rw [h.2]; exact hsub)
                have hg : generateSchema rt st2 = ((generateSchema rt st).1, st2) :=
                  generateSchema_replay rt st st2 hsub0
                have hp2 : generateParameters (some req) p st2 = some (pr.1, st2) :=
                  generateParameters_replay (some req) p (generateSchema rt st).2 st2 pr.1 pr.2
                    (by rw [hp]) (by rw [h.2]; exact hsub)
                rw [hg]
                simp only [hp2]
                simp only [Option.some.injEq, Prod.mk.injEq]
                exact ⟨h.1, trivial⟩
          · simp only [buildOperation, if_neg hm] at h ⊢
            cases hd : detectSwaggerContentTypes (some req) with
            | none => rw [hd] at h; exact absurd h (by simp)
            | some cts =>
                rw [hd] at h
                simp only [Option.some.injEq, Prod.mk.injEq] at h
                have hsub0 : SubMap (generateSchema rt st).2 st2 :=
                  subMap_trans (contentFold_pres cts req (generateSchema rt st).2)
                    (by rw [h.2]; exact hsub)
                have hg : generateSchema rt st2 = ((generateSchema rt st).1, st2) :=
                  generateSchema_replay rt st st2 hsub0
                have hc : contentFold cts req st2
                    = ((contentFold cts req (generateSchema rt st).2).1, st2) :=
                  contentFold_replay cts req (generateSchema rt st).2 st2
                    (by rw [h.2]; exact hsub)
                rw [hg]
                simp only [hc]
                simp only [Option.some.injEq, Prod.mk.injEq]
                exact ⟨h.1, trivial⟩

/-! ### Path-item slots -/

/-- The five HTTP verbs of the AddEndpoint method switch. -/
def isVerb (m : String) : Prop :=
  m = "POST" ∨ m = "GET" ∨ m = "PUT" ∨ m = "DELETE" ∨ m = "PATCH"

instance (m : String) : Decidable (isVerb m) := by
  unfold isVerb
  infer_instance

theorem setSlot_nonverb (item : PathItem) (m : String) (op : Operation)
    (h : ¬ isVerb m) : setSlot item m op = item := by
  unfold isVerb at h
  push_neg at h
  simp [setSlot, h.1, h.2.1, h.2.2.1, h.2.2.2.1, h.2.2.2.2]

theorem slotGet_nonverb (item : PathItem) (m : String) (h : ¬ isVerb m) :
    slotGet item m = none := by
  unfold isVerb at h
  push_neg at h
  simp [slotGet, h.1, h.2.1, h.2.2.1, h.2.2.2.1, h.2.2.2.2]

theorem slotGet_setSlot_self (item : PathItem) (m : String) (op : Operation)
    (h : isVerb m) : slotGet (setSlot item m op) m = some op := by
  rcases h with h | h | h | h | h <;> subst h <;> simp [setSlot, slotGet]

theorem setSlot_id_of_slotGet (item : PathItem) (m : String) (op : Operation)
    (h : slotGet item m = some op) : setSlot item m op = item := by
  by_cases hv : isVerb m
  · rcases hv with hv | hv | hv | hv | hv <;> subst hv <;>
      cases item <;> simp [slotGet] at h <;> simp [setSlot, h]
  · rw [slotGet_nonverb item m hv] at h
    exact absurd h (by simp)

theorem slotGet_setSlot_ne (item : PathItem) (m m' : String) (op : Operation)
    (h : m ≠ m') : slotGet (setSlot item m' op) m = slotGet item m := by
  by_cases h1 : m' = "POST"
  · subst h1; simp [setSlot, slotGet, h]
  · by_cases h2 : m' = "GET"
    · subst h2; simp [setSlot, slotGet, h, h1]
    · by_cases h3 : m' = "PUT"
      · subst h3; simp [setSlot, slotGet, h, h1, h2]
      · by_cases h4 : m' = "DELETE"
        · subst h4; simp [setSlot, slotGet, h, h1, h2, h3]
        · by_cases h5 : m' = "PATCH"
          · subst h5; simp [setSlot, slotGet, h, h1, h2, h3, h4]
          · simp [setSlot, h1, h2, h3, h4, h5]

theorem slotGet_empty (m : String) : slotGet emptyPathItem m = none := by
  unfold slotGet emptyPathItem
  split_ifs <;> rfl

/-- The operation stored in the paths map at a method/path pair. -/
def slotAt (paths : List (String × PathItem)) (m p : String) : Option Operation :=
  match assocLookup paths p with
  | none => none
  | some item => slotGet item m

/-! ### AddEndpoint-level preservation and replay -/

theorem AddEndpoint_schemas_pres (m p : String) (rq rs : Option GoType) (ct : String)
    (g g' : SwaggerGenerator) (h : AddEndpoint m p rq rs ct g = some g') :
    SubMap g.spec.schemas g'.spec.schemas := by
  unfold AddEndpoint at h
  cases hb : buildOperation m p rq rs g.spec.schemas with
  | none => rw [hb] at h; exact absurd h (by simp)
  | some pr =>
      rw [hb] at h
      simp only [Option.some.injEq] at h
      rw [← h]
      exact buildOperation_pres m p rq rs g.spec.schemas pr.1 pr.2 (by rw [hb])

theorem processHandlers_schemas_pres (hs : List handlerInfo) (g g' : SwaggerGenerator)
    (h : processHandlers hs g = some g') : SubMap g.spec.schemas g'.spec.schemas := by
  induction hs generalizing g with
  | nil =>
      simp only [processHandlers, Option.some.injEq] at h
      rw [← h]
      exact subMap_refl _
  | cons hd rest ih =>
      simp only [processHandlers] at h
      cases ha : AddEndpoint hd.method hd.path hd.reqType hd.resType hd.contentType g with
      | none => rw [ha] at h; exact absurd h (by simp)
      | some g1 =>
          rw [ha] at h
          exact subMap_trans
            (AddEndpoint_schemas_pres hd.method hd.path hd.reqType hd.resType
              hd.contentType g g1 ha)
            (ih g1 h)

theorem AddEndpoint_slotAt_ne (m' p' : String) (rq rs : Option GoType) (ct : String)
    (g g' : SwaggerGenerator) (m p : String)
    (h : AddEndpoint m' p' rq rs ct g = some g') (hne : m ≠ m' ∨ p ≠ p') :
    slotAt g'.spec.paths m p = slotAt g.spec.paths m p := by
  unfold AddEndpoint at h
  cases hb : buildOperation m' p' rq rs g.spec.schemas with
  | none => rw [hb] at h; exact absurd h (by simp)
  | some pr =>
      rw [hb] at h
      simp only [Option.some.injEq] at h
      rw [← h]
      by_cases hp : p = p'
      · subst hp
        rcases hne with hne | hne
        · simp only [slotAt, assocLookup_set_self]
          cases hl : assocLookup g.spec.paths p with
          | none =>
              have he : slotGet (PathItem.mk none none none none none) m = none := by
                unfold slotGet
                split_ifs <;> rfl
              simp [hl, slotGet_setSlot_ne _ _ _ _ hne, slotGet_empty, emptyPathItem, he]
          | some item => simp [hl, slotGet_setSlot_ne _ _ _ _ hne]
        · exact absurd rfl hne
      · simp [slotAt, assocLookup_set_ne _ _ _ _ hp]

theorem AddEndpoint_pathKey_present (m' p' : String) (rq rs : Option GoType) (ct : String)
    (g g' : SwaggerGenerator) (p : String) (item : PathItem)
    (h : AddEndpoint m' p' rq rs ct g = some g')
    (hl : assocLookup g.spec.paths p = some item) :
    ∃ item', assocLookup g'.spec.paths p = some item' := by
  unfold AddEndpoint at h
  cases hb : buildOperation m' p' rq rs g.spec.schemas with
  | none => rw [hb] at h; exact absurd h (by simp)
  | some pr =>
      rw [hb] at h
      simp only [Option.some.injEq] at h
      rw [← h]
      by_cases hp : p = p'
      · subst hp
        exact ⟨_, by simpa using assocLookup_set_self g.spec.paths p _⟩
      · exact ⟨item, by simpa [assocLookup_set_ne _ _ _ _ hp] using hl⟩

theorem processHandlers_pathKey_present (hs : List handlerInfo)
    (g g' : SwaggerGenerator) (p : String) (item : PathItem)
    (h : processHandlers hs g = some g')
    (hl : assocLookup g.spec.paths p = some item) :
    ∃ item', assocLookup g'.spec.paths p = some item' := by
  induction hs generalizing g item with
  | nil =>
      simp only [processHandlers, Option.some.injEq] at h
      rw [← h]
      exact ⟨item, hl⟩
  | cons hd rest ih =>
      simp only [processHandlers] at h
      cases ha : AddEndpoint hd.method hd.path hd.reqType hd.resType hd.contentType g with
      | none => rw [ha] at h; exact absurd h (by simp)
      | some g1 =>
          rw [ha] at h
          obtain ⟨it1, h1⟩ := AddEndpoint_pathKey_present hd.method hd.path hd.reqType
            hd.resType hd.contentType g g1 p item ha hl
          exact ih g1 it1 h h1

theorem processHandlers_slotAt_ne (hs : List handlerInfo) (g g' : SwaggerGenerator)
    (m p : String) (h : processHandlers hs g = some g')
    (hk : ∀ hd ∈ hs, m ≠ hd.method ∨ p ≠ hd.path) :
    slotAt g'.spec.paths m p = slotAt g.spec.paths m p := by
  induction hs generalizing g with
  | nil =>
      simp only [processHandlers, Option.some.injEq] at h
      rw [← h]
  | cons hd rest ih =>
      simp only [processHandlers] at h
      cases ha : AddEndpoint hd.method hd.path hd.reqType hd.resType hd.contentType g with
      | none => rw [ha] at h; exact absurd h (by simp)
      | some g1 =>
          rw [ha] at h
          rw [ih g1 h (fun x hx => hk x (List.mem_cons_of_mem hd hx))]
          exact AddEndpoint_slotAt_ne hd.method hd.path hd.reqType hd.resType
            hd.contentType g g1 m p ha (hk hd (List.mem_cons_self hd rest))

/-- Unfolding of a successful AddEndpoint call into its build result and the
paths-map update it performs. -/
theorem AddEndpoint_step (m p : String) (rq rs : Option GoType) (ct : String)
    (g g' : SwaggerGenerator) (h : AddEndpoint m p rq rs ct g = some g') :
    ∃ op, buildOperation m p rq rs g.spec.schemas = some (op, g'.spec.schemas) ∧
      g'.spec.paths = assocSet g.spec.paths p
        (setSlot ((assocLookup g.spec.paths p).getD emptyPathItem) m op) := by
  unfold AddEndpoint at h
  cases hb : buildOperation m p rq rs g.spec.schemas with
  | none => rw [hb] at h; exact absurd h (by simp)
  | some pr =>
      obtain ⟨op0, m0⟩ := pr
      rw [hb] at h
      simp only [Option.some.injEq] at h
      subst h
      exact ⟨op0, rfl, rfl⟩

/-- Replaying an entire successful handler run against its own final state
leaves that state unchanged, provided no two handlers share a (method, path)
key (as is guaranteed by the Go handlers map, whose keys are the
"METHOD:PATH" strings). -/
theorem processHandlers_fix : ∀ (suf : List handlerInfo) (gmid gF : SwaggerGenerator),
    processHandlers suf gmid = some gF →
    List.Pairwise (fun a b => a.method ≠ b.method ∨ a.path ≠ b.path) suf →
    processHandlers suf gF = some gF := by
  intro suf
  induction suf with
  | nil =>
      intro gmid gF h _
      simp only [processHandlers, Option.some.injEq] at h
      rw [← h]
      rfl
  | cons hd rest ih =>
      intro gmid gF h hp
      simp only [processHandlers] at h ⊢
      cases ha : AddEndpoint hd.method hd.path hd.reqType hd.resType hd.contentType gmid with
      | none => rw [ha] at h; exact absurd h (by simp)
      | some g1 =>
          rw [ha] at h
          obtain ⟨op, hbo, hpaths⟩ := AddEndpoint_step hd.method hd.path hd.reqType
            hd.resType hd.contentType gmid g1 ha
          have hsub : SubMap g1.spec.schemas gF.spec.schemas :=
            processHandlers_schemas_pres rest g1 gF h
          have hbo2 : buildOperation hd.method hd.path hd.reqType hd.resType
              gF.spec.schemas = some (op, gF.spec.schemas) :=
            buildOperation_replay hd.method hd.path hd.reqType hd.resType
              gmid.spec.schemas gF.spec.schemas op g1.spec.schemas hbo hsub
          have hkrest : ∀ x ∈ rest, hd.method ≠ x.method ∨ hd.path ≠ x.path :=
            (List.pairwise_cons.mp hp).1
          have hfix : assocSet gF.spec.paths hd.path
              (setSlot ((assocLookup gF.spec.paths hd.path).getD emptyPathItem)
                hd.method op) = gF.spec.paths := by
            by_cases hv : isVerb hd.method
            · have hslot1 : slotAt g1.spec.paths hd.method hd.path = some op := by
                rw [hpaths]
                simp only [slotAt, assocLookup_set_self]
                exact slotGet_setSlot_self _ _ _ hv
              have hslotF : slotAt gF.spec.paths hd.method hd.path = some op := by
                rw [processHandlers_slotAt_ne rest g1 gF hd.method hd.path h hkrest]
                exact hslot1
              cases hlF : assocLookup gF.spec.paths hd.path with
              | none => simp [slotAt, hlF] at hslotF
              | some itemF =>
                  have hg0 : slotGet itemF hd.method = some op := by
                    simpa [slotAt, hlF] using hslotF
                  rw [Option.getD_some, setSlot_id_of_slotGet _ _ _ hg0]
                  exact assocSet_of_lookup_eq _ _ _ hlF
            · have h1 : assocLookup g1.spec.paths hd.path
                  = some (setSlot ((assocLookup gmid.spec.paths hd.path).getD emptyPathItem)
                      hd.method op) := by
                rw [hpaths]
                exact assocLookup_set_self _ _ _
              obtain ⟨itemF, hlF⟩ := processHandlers_pathKey_present rest g1 gF hd.path _ h h1
              rw [hlF, Option.getD_some, setSlot_nonverb _ _ _ hv]
              exact assocSet_of_lookup_eq _ _ _ hlF
          have hAE : AddEndpoint hd.method hd.path hd.reqType hd.resType
              hd.contentType gF = some gF := by
            unfold AddEndpoint
            rw [hbo2]
            simp only [hfix]
          rw [hAE]
          exact ih g1 gF h (List.pairwise_cons.mp hp).2

/-! ### Claim C3: AddEndpoint panics on nil response types and non-struct shapes -/

/-- C3: the claim says AddEndpoint completes without raising any failure for
every registration input, including a nil response shape (as registered for
middleware stages) and non-struct shapes, degrading them instead.  The code
panics on these inputs: a nil response type reaches
`sg.generateSchema(responseType)` where `responseType.Kind()` dereferences a
nil interface, and a non-struct request type reaches `requestType.NumField()`
inside generateParameters (GET) or detectSwaggerContentTypes (other methods),
which panics on non-struct kinds.  The repository's own tests
(TestSwagger_Schema_EdgeCases: Comprehensive_Struct passes a nil response
type, Non_Struct_Types passes string and int shapes) expect these inputs to
be handled, so the claim reflects the intent and the code fails it. -/
theorem C3_AddEndpoint_panics_on_nil_response_and_nonstruct :
    (∀ (m p : String) (rq : Option GoType) (ct : String) (g : SwaggerGenerator),
        AddEndpoint m p rq none ct g = none)
    ∧ (∀ (p ct : String) (rs : GoType) (g : SwaggerGenerator),
        AddEndpoint "GET" p (some GoType.tString) (some rs) ct g = none)
    ∧ ∀ (p ct : String) (rs : GoType) (g : SwaggerGenerator),
        AddEndpoint "POST" p (some GoType.tString) (some rs) ct g = none := by
  refine ⟨fun m p rq ct g => rfl, fun p ct rs g => ?_, fun p ct rs g => ?_⟩
  · unfold AddEndpoint buildOperation
    simp [generateParameters]
  · unfold AddEndpoint buildOperation
    simp [detectSwaggerContentTypes]

/-! ### Claim C6: slice items are never expanded, named struct elements included -/

/-- The Item element type of TestSwagger_NestedSlice: a named struct with one
field Name tagged json:"name". -/
def itemFields : GoFields :=
  GoFields.cons (GoField.mk "name" "" "" "" "" GoType.tString) GoFields.nil

/-- C6: the claim says a slice whose element is an explicitly-typed named
struct gets a fully expanded items schema, and only unnamed/complex element
types degrade to items {type: object}.  The code's slice arm never expands
any non-file element type: for every named struct element the result is an
array with items {type: object} and no properties, exactly the outcome the
repository's own TestSwagger_NestedSlice flags as a failure. -/
theorem C6_slice_of_named_struct_not_expanded :
    (∀ (en : String) (efs : GoFields) (st : SchemaMap),
        generateSchema (GoType.tSlice (GoType.tStruct en efs)) st
          = (Schema.mk "array" [] [] (some (Schema.mk "object" [] [] none "" "")) "" "", st))
    ∧ generateSchema (GoType.tSlice (GoType.tStruct "Item" itemFields)) []
        = (Schema.mk "array" [] [] (some (Schema.mk "object" [] [] none "" "")) "" "", []) :=
  ⟨fun en efs st => rfl, rfl⟩

/-! ### Claim C5: content-type inference -/

/-- Claim-side predicate: the shape has a binary-upload field (single
`*multipart.FileHeader` or array `[]*multipart.FileHeader`). -/
def anyFieldUpload : GoFields → Bool
  | .nil => false
  | .cons f rest => isUploadField f || anyFieldUpload rest

/-- Claim-side predicate: some field carries a present (non-empty, not "-")
json (body) tag. -/
def anyFieldJsonTagged : GoFields → Bool
  | .nil => false
  | .cons f rest => (f.jsonTag != "" && f.jsonTag != "-") || anyFieldJsonTagged rest

/-- Claim-side predicate: some field carries a present (non-empty, not "-")
form (query) tag. -/
def anyFieldFormTagged : GoFields → Bool
  | .nil => false
  | .cons f rest => (f.formTag != "" && f.formTag != "-") || anyFieldFormTagged rest

theorem detectFlags_eq : ∀ fs : GoFields,
    detectFlags fs = (anyFieldJsonTagged fs, anyFieldFormTagged fs, anyFieldUpload fs)
  | .nil => rfl
  | .cons f rest => by
      simp [detectFlags, anyFieldJsonTagged, anyFieldFormTagged, anyFieldUpload,
        detectFlags_eq rest]

/-- The single-field shape whose only tag is form:"-": the claim calls this a
non-empty form tag, the code treats it as no form binding. -/
def formDashT : GoType :=
  GoType.tStruct "S" (GoFields.cons (GoField.mk "" "-" "" "" "" GoType.tString) GoFields.nil)

/-- C5 counterexample: the claim as stated says any field with a non-empty
form tag (and no binary-upload field) makes the inferencer return the
form-urlencoded content type.  The tag `form:"-"` is a non-empty form tag,
yet the code's check `formTag != "" && formTag != "-"` treats it as absent
and falls through to the JSON default. -/
theorem C5_counterexample_form_dash :
    detectSwaggerContentTypes (some formDashT) = some ["application/json"]
    ∧ (some ["application/json"] : Option (List String))
        ≠ some ["application/x-www-form-urlencoded"] :=
  ⟨rfl, by simp⟩

/-- C5 amended: with "tagged" meaning a tag that is non-empty AND not the Go
opt-out value `"-"`, the inferencer returns exactly multipart when a
binary-upload field exists; otherwise urlencoded, with json appended exactly
when a json-tagged field also exists, when a form-tagged field exists;
otherwise the json default. -/
theorem C5_amended_contentTypes (n : String) (fs : GoFields) :
    detectSwaggerContentTypes (some (GoType.tStruct n fs)) =
      some (if anyFieldUpload fs then ["multipart/form-data"]
        else if anyFieldFormTagged fs then
          "application/x-www-form-urlencoded" ::
            (if anyFieldJsonTagged fs then ["application/json"] else [])
        else if anyFieldJsonTagged fs then ["application/json"]
        else ["application/json"]) := by
  simp [detectSwaggerContentTypes, detectFlags_eq fs]

/-! ### Claim C2: header parameters are never emitted -/

/-- Every parameter the field loop emits is located at "path" or "query":
the loop reads only the uri and form tags. -/
theorem generateParametersFields_In : ∀ (pp : List String) (fs : GoFields)
    (st : SchemaMap) (param : Parameter),
    param ∈ (generateParametersFields pp fs st).1 →
    param.In = "path" ∨ param.In = "query"
  | pp, .nil, st, param, h => absurd h (by simp [generateParametersFields])
  | pp, .cons f rest, st, param, h => by
      by_cases h1 : f.uriTag ≠ "" ∧ f.uriTag ≠ "-"
      · by_cases h2 : firstSeg f.uriTag = ""
        · exact generateParametersFields_In pp rest st param
            (by simpa [generateParametersFields, h1, h2] using h)
        · simp only [generateParametersFields, if_pos h1, if_neg h2] at h
          simp only [List.mem_cons] at h
          cases h with
          | inl he => rw [he]; exact Or.inl rfl
          | inr ht =>
              exact generateParametersFields_In pp rest (generateSchema f.typ st).2 param ht
      · by_cases h3 : f.formTag ≠ "" ∧ f.formTag ≠ "-"
        · by_cases h4 : firstSeg f.formTag = ""
          · exact generateParametersFields_In pp rest st param
              (by simpa [generateParametersFields, h1, h3, h4] using h)
          · by_cases h5 : contains pp (firstSeg f.formTag) = true
            · exact generateParametersFields_In pp rest st param
                (by simpa [generateParametersFields, h1, h3, h4, h5] using h)
            · simp only [generateParametersFields, if_neg h1, if_pos h3, if_neg h4,
                if_neg h5] at h
              simp only [List.mem_cons] at h
              cases h with
              | inl he => rw [he]; exact Or.inr rfl
              | inr ht =>
                  exact generateParametersFields_In pp rest (generateSchema f.typ st).2 param ht
        · exact generateParametersFields_In pp rest st param
            (by simpa [generateParametersFields, h1, h3] using h)

/-- The HeaderReq shape of TestSwagger_HeaderMerge: one field with
header:"Authorization" validate:"required" and no other tags. -/
def headerReqFields : GoFields :=
  GoFields.cons (GoField.mk "" "" "" "Authorization" "required" GoType.tString) GoFields.nil

def headerReqT : GoType := GoType.tStruct "HeaderReq" headerReqFields

/-- C2: the claim says a field carrying a header tag with non-empty name (and
no path tag) yields a parameter with location "header", required per the
validate rules.  The code never consults header tags: on the HeaderReq shape
of TestSwagger_HeaderMerge it emits no parameter at all, and in general every
parameter the synthesizer emits is located at "path" or "query" — never
"header".  The repository's own TestSwagger_HeaderMerge expects a required
"Authorization" header parameter, so the claim reflects the intent and the
code fails it. -/
theorem C2_header_source_ignored :
    generateParameters (some headerReqT) "/header-merge" [] = some ([], [])
    ∧ ∀ (pp : List String) (fs : GoFields) (st : SchemaMap) (param : Parameter),
        param ∈ (generateParametersFields pp fs st).1 →
        param.In = "path" ∨ param.In = "query" :=
  ⟨rfl, generateParametersFields_In⟩

/-- A shape whose single field has uri:"id", to exercise the emitted-parameter
location check on a concrete input. -/
def uriDemoFields : GoFields :=
  GoFields.cons (GoField.mk "" "" "id" "" "" GoType.tString) GoFields.nil

theorem C2_header_source_ignored_witness :
    Parameter.mk "id" "path" true (Schema.mk "string" [] [] none "" "")
        ∈ (generateParametersFields [] uriDemoFields []).1
    ∧ ((Parameter.mk "id" "path" true (Schema.mk "string" [] [] none "" "")).In = "path"
        ∨ (Parameter.mk "id" "path" true (Schema.mk "string" [] [] none "" "")).In = "query") := by
  have hm : Parameter.mk "id" "path" true (Schema.mk "string" [] [] none "" "")
      ∈ (generateParametersFields [] uriDemoFields []).1 := by
    rw [show (generateParametersFields [] uriDemoFields []).1
          = [Parameter.mk "id" "path" true (Schema.mk "string" [] [] none "" "")] from rfl]
    exact List.mem_singleton.mpr rfl
  exact ⟨hm, C2_header_source_ignored.2 [] uriDemoFields [] _ hm⟩

/-! ### Claim C4: a path tag wins over a form tag on the same field -/

def goFieldsAppend : GoFields → GoFields → GoFields
  | .nil, ys => ys
  | .cons f rest, ys => .cons f (goFieldsAppend rest ys)

/-- The field loop distributes over concatenation of the field list,
threading the registry. -/
theorem generateParametersFields_append : ∀ (pp : List String) (xs ys : GoFields)
    (st : SchemaMap),
    generateParametersFields pp (goFieldsAppend xs ys) st
      = ((generateParametersFields pp xs st).1
          ++ (generateParametersFields pp ys (generateParametersFields pp xs st).2).1,
         (generateParametersFields pp ys (generateParametersFields pp xs st).2).2)
  | pp, .nil, ys, st => by simp [goFieldsAppend, generateParametersFields]
  | pp, .cons f rest, ys, st => by
      by_cases h1 : f.uriTag ≠ "" ∧ f.uriTag ≠ "-"
      · by_cases h2 : firstSeg f.uriTag = ""
        · simp [goFieldsAppend, generateParametersFields, h1, h2,
            generateParametersFields_append pp rest ys st]
        · simp [goFieldsAppend, generateParametersFields, h1, h2,
            generateParametersFields_append pp rest ys (generateSchema f.typ st).2]
      · by_cases h3 : f.formTag ≠ "" ∧ f.formTag ≠ "-"
        · by_cases h4 : firstSeg f.formTag = ""
          · simp [goFieldsAppend, generateParametersFields, h1, h3, h4,
              generateParametersFields_append pp rest ys st]
          · by_cases h5 : contains pp (firstSeg f.formTag) = true
            · simp [goFieldsAppend, generateParametersFields, h1, h3, h4, h5,
                generateParametersFields_append pp rest ys st]
            · simp [goFieldsAppend, generateParametersFields, h1, h3, h4, h5,
                generateParametersFields_append pp rest ys (generateSchema f.typ st).2]
        · simp [goFieldsAppend, generateParametersFields, h1, h3,
            generateParametersFields_append pp rest ys st]

/-- C4: for a struct field carrying both a uri tag and a form tag with
non-empty names, the synthesizer emits exactly one parameter for that field,
located at "path", with required unconditionally true (whatever the validate
tag says), and processes no other source for the field: the loop continues
with the remaining fields directly after the path entry, so the form tag
contributes nothing. -/
theorem C4_path_tag_wins_over_form (n : String) (pre post : GoFields)
    (jsonT headerT validateT uriT formT : String) (ty : GoType)
    (path : String) (st : SchemaMap)
    (h1 : uriT ≠ "") (h2 : uriT ≠ "-") (h3 : firstSeg uriT ≠ "")
    (h4 : formT ≠ "") (h5 : formT ≠ "-") (h6 : firstSeg formT ≠ "") :
    generateParameters
      (some (GoType.tStruct n (goFieldsAppend pre
        (GoFields.cons (GoField.mk jsonT formT uriT headerT validateT ty) post))))
      path st
    = some ((generateParametersFields (extractPathParameters path) pre st).1
        ++ Parameter.mk (firstSeg uriT) "path" true
            (generateSchema ty
              (generateParametersFields (extractPathParameters path) pre st).2).1
          :: (generateParametersFields (extractPathParameters path) post
              (generateSchema ty
                (generateParametersFields (extractPathParameters path) pre st).2).2).1,
        (generateParametersFields (extractPathParameters path) post
          (generateSchema ty
            (generateParametersFields (extractPathParameters path) pre st).2).2).2) := by
  simp only [generateParameters, Option.some.injEq]
  rw [generateParametersFields_append]
  have hstep : ∀ st0 : SchemaMap,
      generateParametersFields (extractPathParameters path)
        (GoFields.cons (GoField.mk jsonT formT uriT headerT validateT ty) post) st0
      = (Parameter.mk (firstSeg uriT) "path" true (generateSchema ty st0).1
          :: (generateParametersFields (extractPathParameters path) post
              (generateSchema ty st0).2).1,
         (generateParametersFields (extractPathParameters path) post
          (generateSchema ty st0).2).2) := by
    intro st0
    simp [generateParametersFields, GoField.uriTag, GoField.typ, h1, h2, h3]
  rw [hstep]

/-- The DupReq shape of TestSwagger_Schema_EdgeCases/Duplicate_Param_Source:
one field with uri:"id" AND form:"id". -/
theorem C4_path_tag_wins_over_form_witness :
    generateParameters
      (some (GoType.tStruct "DupReq" (goFieldsAppend GoFields.nil
        (GoFields.cons (GoField.mk "" "id" "id" "" "" GoType.tString) GoFields.nil))))
      "/test/:id" []
    = some ((generateParametersFields (extractPathParameters "/test/:id") GoFields.nil []).1
        ++ Parameter.mk (firstSeg "id") "path" true
            (generateSchema GoType.tString
              (generateParametersFields (extractPathParameters "/test/:id")
                GoFields.nil []).2).1
          :: (generateParametersFields (extractPathParameters "/test/:id") GoFields.nil
              (generateSchema GoType.tString
                (generateParametersFields (extractPathParameters "/test/:id")
                  GoFields.nil []).2).2).1,
        (generateParametersFields (extractPathParameters "/test/:id") GoFields.nil
          (generateSchema GoType.tString
            (generateParametersFields (extractPathParameters "/test/:id")
              GoFields.nil []).2).2).2) :=
  C4_path_tag_wins_over_form "DupReq" GoFields.nil GoFields.nil "" "" "" "id" "id"
    GoType.tString "/test/:id" [] (by decide) (by decide) (by decide) (by decide)
    (by decide) (by decide)

/-! ### Claim C7: struct-schema property synthesis

The claim as stated says the resolver falls back to the form tag's segment
"when no json name exists".  The code (src/swagger.go, lines 416-424) falls
back only when the whole json tag is absent (`""` or `"-"`): a field tagged
json:",omitempty" form:"x" has an empty json name segment, so the claim
requires the property "x", yet the code computes the empty field name from
the json tag and skips the field entirely.  The counterexample below
exhibits this; the amended claim replaces "when no json name exists" by
"only when no json tag is present", which is what `resolveFieldName`
implements, and is proved by `C7_struct_schema_synthesis`. -/

/-- The shape refuting the original fallback wording: one field tagged
json:",omitempty" form:"x" (empty json name segment, present form name). -/
def omitReqFields : GoFields :=
  GoFields.cons (GoField.mk ",omitempty" "x" "" "" "" GoType.tString) GoFields.nil

/-- C7 counterexample: on the field tagged json:",omitempty" form:"x" the
json name segment is empty (first conjunct) while the form name "x" is not
(second conjunct), so the claim's fallback-on-empty-json-name rule requires a
property named "x"; the code instead resolves the name from the json tag,
gets "", and skips the field: the synthesized schema has no properties at
all, and in particular none named "x". -/
theorem C7_counterexample_empty_json_name :
    firstSeg ",omitempty" = ""
    ∧ ("x" : String) ≠ ""
    ∧ (generateStructSchema "OmitReq" omitReqFields []).1.properties = []
    ∧ assocLookup (generateStructSchema "OmitReq" omitReqFields []).1.properties "x"
        = none :=
  ⟨rfl, by decide, rfl, rfl⟩

/-- Claim-side view of the validation enrichment: the description becomes
"Validation: " followed by the full rule string, and the format becomes
"email" when the rules contain `email`; nothing changes without rules. -/
def fieldSchemaSpecC7 (f : GoField) (st : SchemaMap) : Schema :=
  let base := (generateSchema f.typ st).1
  if f.validateTag = "" then base
  else Schema.mk base.typ base.properties base.required base.items
    (if goContains f.validateTag "email" then "email" else base.format)
    ("Validation: " ++ f.validateTag)

/-- Amended-claim property list: one entry per field whose resolved name is
non-empty, where the name is the json tag's first segment when a json tag is
present (non-empty and not "-") — even if that segment is empty — and the
form tag's first segment only when no json tag is present. -/
def propsSpecC7 : GoFields → SchemaMap → List (String × Schema)
  | .nil, _ => []
  | .cons f rest, st =>
      if resolveFieldName f.jsonTag f.formTag = "" then propsSpecC7 rest st
      else (resolveFieldName f.jsonTag f.formTag, fieldSchemaSpecC7 f st)
        :: propsSpecC7 rest (generateSchema f.typ st).2

/-- Amended-claim required list: the resolved names (same resolution rule as
`propsSpecC7`) of the fields whose validate rules contain `required`, in
field order. -/
def requiredSpecC7 : GoFields → List String
  | .nil => []
  | .cons f rest =>
      if resolveFieldName f.jsonTag f.formTag ≠ ""
          ∧ goContains f.validateTag "required" = true then
        resolveFieldName f.jsonTag f.formTag :: requiredSpecC7 rest
      else requiredSpecC7 rest

theorem applyValidation_spec (s : Schema) (v : String) :
    applyValidation s v = Schema.mk s.typ s.properties s.required s.items
      (if goContains v "email" then "email" else s.format) ("Validation: " ++ v) := by
  cases s
  rfl

theorem goContains_empty_required : goContains "" "required" = false := rfl

/-- The field loop of struct-schema synthesis computes exactly the claim-side
property and required lists. -/
theorem genFields_spec : ∀ (fs : GoFields) (st : SchemaMap),
    (genFields fs st).1 = propsSpecC7 fs st ∧ (genFields fs st).2.1 = requiredSpecC7 fs
  | .nil, _ => ⟨rfl, rfl⟩
  | .cons (.mk j fo u hd v ty) rest, st => by
      by_cases hn : resolveFieldName j fo = ""
      · have ih := genFields_spec rest st
        constructor
        · simp [genFields, propsSpecC7, GoField.jsonTag, GoField.formTag, hn, ih.1]
        · simp [genFields, requiredSpecC7, GoField.jsonTag, GoField.formTag,
            GoField.validateTag, hn, ih.2]
      · have ih := genFields_spec rest (generateSchema ty st).2
        by_cases hv : v = ""
        · constructor
          · simp [genFields, propsSpecC7, fieldSchemaSpecC7, GoField.jsonTag,
              GoField.formTag, GoField.validateTag, GoField.typ, hn, hv, ih.1]
          · subst hv
            simp [genFields, requiredSpecC7, GoField.jsonTag, GoField.formTag,
              GoField.validateTag, GoField.typ, hn, goContains_empty_required, ih.2]
        · constructor
          · simp [genFields, propsSpecC7, fieldSchemaSpecC7, GoField.jsonTag,
              GoField.formTag, GoField.validateTag, GoField.typ, hn, hv, ih.1,
              applyValidation_spec]
          · simp [genFields, requiredSpecC7, GoField.jsonTag, GoField.formTag,
              GoField.validateTag, GoField.typ, hn, hv, ih.2]

/-- C7 amended: on a registry miss, struct-schema synthesis resolves each
property name as the json tag's first comma segment whenever a json tag is
present, falling back to the form tag's first segment only when no json tag
is present, and skips fields resolving to the empty name (so a present json
tag with an empty name segment suppresses the field even if a form name
exists — the correction the counterexample forces); a field whose validate
rules contain `required` contributes its resolved name to the schema's
required list; rules containing `email` set the property's format to
"email"; and any non-empty rule string sets the property's description to
"Validation: " followed by the full rule string. -/
theorem C7_struct_schema_synthesis (n : String) (fs : GoFields) (st : SchemaMap)
    (hmiss : assocLookup st (if n = "" then "Anonymous" else n) = none) :
    generateStructSchema n fs st
      = (Schema.mk "object" (propsSpecC7 fs st) (requiredSpecC7 fs) none "" "",
         assocSet (genFields fs st).2.2 (if n = "" then "Anonymous" else n)
           (Schema.mk "object" (propsSpecC7 fs st) (requiredSpecC7 fs) none "" "")) := by
  unfold generateStructSchema
  rw [hmiss]
  simp only [(genFields_spec fs st).1, (genFields_spec fs st).2]

/-- The shape of spec Scenario A: Email string with json:"email" and
validate:"required,email". -/
def emailReqFields : GoFields :=
  GoFields.cons (GoField.mk "email" "" "" "" "required,email" GoType.tString) GoFields.nil

theorem C7_struct_schema_synthesis_witness :
    assocLookup ([] : SchemaMap) (if "EmailReq" = "" then "Anonymous" else "EmailReq") = none
    ∧ generateStructSchema "EmailReq" emailReqFields []
      = (Schema.mk "object" (propsSpecC7 emailReqFields []) (requiredSpecC7 emailReqFields)
          none "" "",
         assocSet (genFields emailReqFields []).2.2
           (if "EmailReq" = "" then "Anonymous" else "EmailReq")
           (Schema.mk "object" (propsSpecC7 emailReqFields [])
             (requiredSpecC7 emailReqFields) none "" "")) :=
  ⟨rfl, C7_struct_schema_synthesis "EmailReq" emailReqFields [] rfl⟩

/-! ### Claim C8: binary-upload fields and parameters -/

/-- The FileReq shape: one field of type *multipart.FileHeader with form:"file". -/
def fileFormFields : GoFields :=
  GoFields.cons (GoField.mk "" "file" "" "" "" (GoType.tPtr GoType.tFileHeader)) GoFields.nil

def fileFormT : GoType := GoType.tStruct "FileReq" fileFormFields

/-- C8 counterexample: the claim says generateParameters never emits any
entry for a binary-upload field, even one carrying a non-empty form tag.  On
the FileReq shape the code emits exactly one query parameter, with the binary
string schema, so the parameter list is not empty. -/
theorem C8_counterexample_file_field_emitted :
    generateParameters (some fileFormT) "/upload" []
      = some ([Parameter.mk "file" "query" false (Schema.mk "string" [] [] none "binary" "")],
          [])
    ∧ ([Parameter.mk "file" "query" false (Schema.mk "string" [] [] none "binary" "")]
        : List Parameter) ≠ [] :=
  ⟨rfl, by simp⟩

/-- C8 amended: a binary-upload field is treated like any other form-tagged
field: with a present form tag whose name is non-empty and not claimed by a
path placeholder, and no uri tag, generateParameters emits a query parameter
for it whose schema is the binary string schema; binary-upload fields are not
excluded from parameters. -/
theorem C8_amended_file_fields_emitted (pp : List String) (jsonT headerT formT : String)
    (rest : GoFields) (st : SchemaMap)
    (h1 : formT ≠ "") (h2 : formT ≠ "-") (h3 : firstSeg formT ≠ "")
    (h4 : contains pp (firstSeg formT) = false) :
    generateParametersFields pp
      (GoFields.cons (GoField.mk jsonT formT "" headerT "" (GoType.tPtr GoType.tFileHeader))
        rest) st
      = (Parameter.mk (firstSeg formT) "query" false
            (Schema.mk "string" [] [] none "binary" "")
          :: (generateParametersFields pp rest st).1,
         (generateParametersFields pp rest st).2) := by
  have hg : generateSchema (GoType.tPtr GoType.tFileHeader) st
      = (Schema.mk "string" [] [] none "binary" "", st) := rfl
  simp [generateParametersFields, GoField.uriTag, GoField.formTag, GoField.validateTag,
    GoField.typ, h1, h2, h3, h4, hg]

theorem C8_amended_file_fields_emitted_witness :
    generateParametersFields []
      (GoFields.cons (GoField.mk "" "file" "" "" "" (GoType.tPtr GoType.tFileHeader))
        GoFields.nil) []
      = (Parameter.mk (firstSeg "file") "query" false
            (Schema.mk "string" [] [] none "binary" "")
          :: (generateParametersFields [] GoFields.nil []).1,
         (generateParametersFields [] GoFields.nil []).2) :=
  C8_amended_file_fields_emitted [] "" "" "file" GoFields.nil [] (by decide) (by decide)
    (by decide) (by decide)

/-! ### Claim C10: the component registry -/

def innerAnonFields : GoFields :=
  GoFields.cons (GoField.mk "a" "" "" "" "" GoType.tString) GoFields.nil

def innerAnonT : GoType := GoType.tStruct "" innerAnonFields

def outerAnonFields : GoFields :=
  GoFields.cons (GoField.mk "inner" "" "" "" "" innerAnonT) GoFields.nil

def outerAnonT : GoType := GoType.tStruct "" outerAnonFields

def innerAnonSchema : Schema :=
  Schema.mk "object" [("a", Schema.mk "string" [] [] none "" "")] [] none "" ""

def outerAnonSchema : Schema :=
  Schema.mk "object" [("inner", innerAnonSchema)] [] none "" ""

/-- C10 counterexample: the claim says a registry entry, once present, is
never overwritten.  Synthesizing an anonymous struct that contains another
anonymous struct refutes this: after the outer synthesis's field loop the
registry holds the inner schema under "Anonymous" (first conjunct), and the
final store of the very same call replaces that present entry with the outer
schema (remaining conjuncts), which differs from the inner one. -/
theorem C10_counterexample_nested_anonymous_overwrite :
    (genFields outerAnonFields []).2.2 = [("Anonymous", innerAnonSchema)]
    ∧ (generateSchema outerAnonT []).2
        = assocSet (genFields outerAnonFields []).2.2 "Anonymous" outerAnonSchema
    ∧ (generateSchema outerAnonT []).2 = [("Anonymous", outerAnonSchema)]
    ∧ innerAnonSchema ≠ outerAnonSchema :=
  ⟨rfl, rfl, rfl, by simp [innerAnonSchema, outerAnonSchema]⟩

/-- C10 amended: every composite schema is stored under its type name, with
anonymous structs sharing the synthetic name "Anonymous"; a synthesis that
finds its name already registered returns the cached schema unchanged,
whatever its own fields are; and entries present when a synthesis call starts
are never overwritten by that call.  (An entry stored mid-call by a nested
same-name synthesis, however, is overwritten by the enclosing call's final
store, as the counterexample shows.) -/
theorem C10_amended_registry (n : String) (fs : GoFields) (st : SchemaMap) :
    (∀ v, assocLookup st (if n = "" then "Anonymous" else n) = some v →
        generateStructSchema n fs st = (v, st))
    ∧ (assocLookup st (if n = "" then "Anonymous" else n) = none →
        assocLookup (generateStructSchema n fs st).2 (if n = "" then "Anonymous" else n)
          = some (generateStructSchema n fs st).1)
    ∧ ∀ k v, assocLookup st k = some v →
        assocLookup (generateStructSchema n fs st).2 k = some v := by
  refine ⟨?_, ?_, ?_⟩
  · intro v hv
    unfold generateStructSchema
    rw [hv]
  · intro hm
    unfold generateStructSchema
    rw [hm]
    exact assocLookup_set_self _ _ _
  · exact generateStructSchema_pres_of n fs st (genFields_pres fs st)

def cachedDemoSchema : Schema := Schema.mk "object" [] [] none "" ""

def otherDemoFields : GoFields :=
  GoFields.cons (GoField.mk "b" "" "" "" "" GoType.tBool) GoFields.nil

theorem C10_amended_registry_witness :
    generateStructSchema "User" otherDemoFields [("User", cachedDemoSchema)]
      = (cachedDemoSchema, [("User", cachedDemoSchema)])
    ∧ assocLookup (generateStructSchema "User" otherDemoFields []).2
        (if "User" = "" then "Anonymous" else "User")
      = some (generateStructSchema "User" otherDemoFields []).1 :=
  ⟨(C10_amended_registry "User" otherDemoFields [("User", cachedDemoSchema)]).1
      cachedDemoSchema rfl,
   (C10_amended_registry "User" otherDemoFields []).2.1 rfl⟩

/-! ### Claim C9: Generate is idempotent -/

/-- C9: running Generate a second time on the same generator with the same
registered handlers (the Go handlers map has one entry per "METHOD:PATH"
key, hence the pairwise-distinct hypothesis; the list fixes one iteration
order) returns the same output document and leaves the generator unchanged:
the second run hits the schema cache everywhere and rewrites every path slot
with the value it already has. -/
theorem C9_Generate_idempotent (hs : List handlerInfo) (g g1 : SwaggerGenerator)
    (out : OpenAPISpec)
    (hrun : Generate hs g = some (out, g1))
    (hkeys : List.Pairwise (fun a b => a.method ≠ b.method ∨ a.path ≠ b.path) hs) :
    Generate hs g1 = some (out, g1) := by
  unfold Generate at hrun ⊢
  cases hp : processHandlers hs g with
  | none => rw [hp] at hrun; exact absurd hrun (by simp)
  | some gF =>
      rw [hp] at hrun
      simp only [Option.some.injEq, Prod.mk.injEq] at hrun
      obtain ⟨hout, hg1⟩ := hrun
      subst hg1
      rw [processHandlers_fix hs g gF hp hkeys]
      simp [hout]

def demoReqT : GoType :=
  GoType.tStruct "CreateReq"
    (GoFields.cons (GoField.mk "name" "" "" "" "required" GoType.tString) GoFields.nil)

def demoResT : GoType :=
  GoType.tStruct "User"
    (GoFields.cons (GoField.mk "id" "" "" "" "" GoType.tInt) GoFields.nil)

def demoHandlers : List handlerInfo :=
  [handlerInfo.mk "POST" "/users" (some demoReqT) (some demoResT) "application/json"]

def demoGen : SwaggerGenerator := NewSwaggerGenerator "t" "v"

def demoG1 : SwaggerGenerator := (processHandlers demoHandlers demoGen).getD demoGen

theorem C9_Generate_idempotent_witness :
    Generate demoHandlers demoGen = some (demoG1.spec, demoG1)
    ∧ Generate demoHandlers demoG1 = some (demoG1.spec, demoG1) :=
  ⟨rfl,
   C9_Generate_idempotent demoHandlers demoGen demoG1 demoG1.spec rfl
     (by simp [demoHandlers, List.pairwise_cons])⟩

end Fluxo
